import Mathlib

/-!
Verification of the assignment-PDF structuring core
(`app/services/advanced_pdf_extractor.py`): line classifier, question-text
classifier, question parser, scenario detector, context enhancer and chunk
synthesizer, embedded shallowly over `List Char` / `String`.

Modelling notes:
* Python strings are modelled as Lean `String`, characters as `Char`;
  all computation happens on the underlying `List Char`.
* `str.strip()` / the regex class `\s` are modelled by the six ASCII
  whitespace characters Python's `\s` matches on ASCII text.
* `str.lower()` is modelled by `Char.toLower` (ASCII case folding); every
  keyword in the source is ASCII.
* The regexes of the source never need backtracking (each quantified class
  is disjoint from the character that follows it), so each is translated
  to a greedy scanner.
-/

set_option maxRecDepth 40000

namespace PDFX

abbrev Chars := List Char

/-- ASCII whitespace as matched by Python's `\s` and `str.strip()`. -/
def pyIsSpace (c : Char) : Bool :=
  c = ' ' || c = '\t' || c = '\n' || c = '\r' || c = '\x0b' || c = '\x0c'

/-- Python `str.strip()` on the character list. -/
def stripChars (l : Chars) : Chars :=
  ((l.dropWhile pyIsSpace).reverse.dropWhile pyIsSpace).reverse

/-- Python `str.strip()`. -/
def pyStrip (s : String) : String := ⟨stripChars s.data⟩

/-- Python `str.lower()` on a character list (ASCII folding). -/
def lowerL (l : Chars) : Chars := l.map Char.toLower

/-- Python `str.lower()`. -/
def pyLower (s : String) : String := ⟨lowerL s.data⟩

/-- Python `str.split()` with no separator: split on whitespace runs, drop empties.
The first argument accumulates the current word reversed. -/
def splitWsAux : Chars → Chars → List Chars
  | [], acc => if acc.isEmpty then [] else [acc.reverse]
  | c :: rest, acc =>
    if pyIsSpace c then
      if acc.isEmpty then splitWsAux rest [] else acc.reverse :: splitWsAux rest []
    else splitWsAux rest (c :: acc)

/-- Python `text.split()[0].lower() if text.split() else ""`. -/
def firstWordOf (l : Chars) : String :=
  match splitWsAux l [] with
  | [] => ""
  | w :: _ => ⟨lowerL w⟩

/-- Python `str.split` at newlines (keeps empty pieces). -/
def splitLines : Chars → List Chars
  | [] => [[]]
  | c :: rest =>
    if c = '\n' then [] :: splitLines rest
    else
      match splitLines rest with
      | [] => [[c]]
      | l :: ls => (c :: l) :: ls

/-- Python `sep.join(xs)` on character lists. -/
def interL (sep : Chars) : List Chars → Chars
  | [] => []
  | [x] => x
  | x :: y :: ys => x ++ sep ++ interL sep (y :: ys)

/-- Python newline join of a list of strings. -/
def joinNL (xs : List String) : String := ⟨interL ['\n'] (xs.map String.data)⟩

/-- Python blank-line join of a list of strings. -/
def joinBB (xs : List String) : String := ⟨interL ['\n', '\n'] (xs.map String.data)⟩

/-- Does `n` occur at the start of `h`? (`str.startswith`). -/
def startsWithL : Chars → Chars → Bool
  | [], _ => true
  | _ :: _, [] => false
  | a :: as, b :: bs => a = b && startsWithL as bs

/-- Python's substring test `n in h`. -/
def substrL (n : Chars) : Chars → Bool
  | [] => n.isEmpty
  | c :: t => startsWithL n (c :: t) || substrL n t

/-- Substring test on `String`s (`needle in haystack` in Python). -/
def substrS (needle hay : String) : Bool := substrL needle.data hay.data

/-- Greedy `p+`: the maximal non-empty prefix satisfying `p`, with the rest. -/
def takeWhile1 (p : Char → Bool) (l : Chars) : Option (Chars × Chars) :=
  match l.takeWhile p with
  | [] => none
  | c :: cs => some (c :: cs, l.dropWhile p)

def isRomanChar (c : Char) : Bool :=
  c = 'i' || c = 'v' || c = 'x' || c = 'I' || c = 'V' || c = 'X'

def isDotParen (c : Char) : Bool := c = '.' || c = ')'

/-- Pattern 1, `re.match` of `^(\d+[\.\)]\s+)`: the matched group, or `none`. -/
def matchNumDot (l : Chars) : Option Chars :=
  match takeWhile1 Char.isDigit l with
  | none => none
  | some (ds, rest) =>
    match rest with
    | [] => none
    | p :: rest2 =>
      if isDotParen p then
        match takeWhile1 pyIsSpace rest2 with
        | none => none
        | some (ws, _) => some (ds ++ p :: ws)
      else none

/-- Pattern 2, `re.match` of `^([a-z][\.\)]\s+)` with `re.IGNORECASE` — this
also covers the source's third pattern `^([A-Z][\.\)]\s+)`. -/
def matchLetterDot (l : Chars) : Option Chars :=
  match l with
  | c :: p :: rest =>
    if c.isAlpha && isDotParen p then
      match takeWhile1 pyIsSpace rest with
      | none => none
      | some (ws, _) => some (c :: p :: ws)
    else none
  | _ => none

/-- Patterns 4 to 6, `re.match` of `^(<kw>\s+\d+)` with `re.IGNORECASE`, for
`Question`, `Problem`, `Exercise`; the group keeps the original characters. -/
def matchKeywordNum (kw : String) (l : Chars) : Option Chars :=
  let k := kw.data
  if lowerL (l.take k.length) = lowerL k then
    match takeWhile1 pyIsSpace (l.drop k.length) with
    | none => none
    | some (ws, rest2) =>
      match takeWhile1 Char.isDigit rest2 with
      | none => none
      | some (ds, _) => some (l.take k.length ++ ws ++ ds)
  else none

/-- Pattern 7, `re.match` of `^([ivxIVX]+[\.\)]\s+)`. -/
def matchRoman (l : Chars) : Option Chars :=
  match takeWhile1 isRomanChar l with
  | none => none
  | some (rs, rest) =>
    match rest with
    | [] => none
    | p :: rest2 =>
      if isDotParen p then
        match takeWhile1 pyIsSpace rest2 with
        | none => none
        | some (ws, _) => some (rs ++ p :: ws)
      else none

/-- The Line Classifier: `self.question_patterns` tried in order with
`re.match` with `re.IGNORECASE`; returns the first pattern's group 1.
The third source pattern (uppercase letter) is subsumed by the second under
`re.IGNORECASE` but is kept in place for fidelity. -/
def markerMatch (l : Chars) : Option Chars :=
  match matchNumDot l with
  | some g => some g
  | none =>
  match matchLetterDot l with
  | some g => some g
  | none =>
  match matchLetterDot l with
  | some g => some g
  | none =>
  match matchKeywordNum "Question" l with
  | some g => some g
  | none =>
  match matchKeywordNum "Problem" l with
  | some g => some g
  | none =>
  match matchKeywordNum "Exercise" l with
  | some g => some g
  | none => matchRoman l

def interrogative_words : List String :=
  ["what", "why", "how", "when", "where", "who", "which"]

/-- The twenty imperative verbs of `_is_actual_question` (§4.2 rule 3). -/
def imperative_words : List String :=
  ["explain", "describe", "define", "compare", "discuss",
   "analyze", "evaluate", "calculate", "prepare", "compute",
   "determine", "identify", "list", "state", "illustrate",
   "justify", "prove", "show", "demonstrate", "outline"]

def transaction_indicators : List String :=
  ["invested", "purchased", "paid", "received", "sold",
   "bought", "acquired", "issued", "collected", "borrowed",
   "provided", "completed", "recorded", "transferred"]

/-- Marker removal, `re.sub` of `^[0-9a-zA-Z]+[\.\)]\s*` by nothing: strip the numbering
marker when present, otherwise leave the text unchanged. -/
def stripMarker (l : Chars) : Chars :=
  match takeWhile1 Char.isAlphanum l with
  | none => l
  | some (_, []) => l
  | some (_, p :: rest2) =>
    if isDotParen p then rest2.dropWhile pyIsSpace else l

/-- Source `_is_actual_question`: the seven ordered rules of §4.2. -/
def is_actual_question (text : String) : Bool :=
  if text.data.contains '?' then true
  else if interrogative_words.contains (firstWordOf (stripMarker text.data)) then true
  else if imperative_words.contains (firstWordOf (stripMarker text.data)) then true
  else if transaction_indicators.contains (firstWordOf (stripMarker text.data)) then false
  else if (text.data.take 50).contains '$' then false
  else if text.data.length < 100
          && !(transaction_indicators.any fun w => substrL w.data (lowerL text.data))
          && !(text.data.contains '$') then true
  else false

/-- Exact roman-id test, `re.match` of `^[ivxIVX]+[\.\)]$` on `qid.strip()`. -/
def romanIdExact (qid : String) : Bool :=
  match takeWhile1 isRomanChar (stripChars qid.data) with
  | some (_, [p]) => isDotParen p
  | _ => false

/-- Roman-marker removal, `re.sub` of `^[ivxIVX]+[\.\)]\s*` by nothing, case-insensitive. -/
def stripRoman (l : Chars) : Chars :=
  match takeWhile1 isRomanChar l with
  | none => l
  | some (_, []) => l
  | some (_, p :: rest2) =>
    if isDotParen p then rest2.dropWhile pyIsSpace else l

/-- The ten imperative verbs `_is_sub_item` checks (a strict subset of
`imperative_words`). -/
def sub_item_imperatives : List String :=
  ["explain", "describe", "define", "compare", "discuss",
   "analyze", "evaluate", "calculate", "prepare", "compute"]

/-- Source `_is_sub_item(question_id, line)`. -/
def is_sub_item (question_id : String) (line : String) : Bool :=
  if romanIdExact question_id then
    if line.data.length < 100 then
      if !(interrogative_words.contains (firstWordOf (stripRoman line.data)))
         && !(sub_item_imperatives.contains (firstWordOf (stripRoman line.data))) then
        true
      else false
    else false
  else false

/-- A parsed question (`current_question` dict; the three booleans start
false and are set once by `_enhance_question_context`). -/
structure Question where
  id : String
  full_line : String
  text : String
  has_scenario : Bool := false
  has_table : Bool := false
  has_image : Bool := false
deriving Repr, DecidableEq

/-- The open item of the parser: `current_question` (id, first line) plus
`current_text` (accumulated lines, oldest first, never empty). -/
structure OpenItem where
  qid : String
  firstLine : String
  lines : List String
deriving Repr, DecidableEq

abbrev ParseState := List Question × Option OpenItem

/-- Closing an open item: classify its accumulated text and either emit it
as a Question or discard it (lines 309–315 / 331–336 of the source). -/
def closeItem (qs : List Question) : Option OpenItem → List Question
  | none => qs
  | some it =>
    let t := joinNL it.lines
    if is_actual_question t then
      qs ++ [{ id := it.qid, full_line := it.firstLine, text := t }]
    else qs

/-- One iteration of the `for line in lines` loop of `_parse_questions`. -/
def parseStep (st : ParseState) (rawLine : String) : ParseState :=
  let line := pyStrip rawLine
  if line = "" then st
  else
    match markerMatch line.data with
    | some g =>
      let qid : String := ⟨stripChars g⟩
      match st.2 with
      | some it =>
        if is_sub_item qid line then
          (st.1, some { it with lines := it.lines ++ [line] })
        else
          (closeItem st.1 (some it), some ⟨qid, line, [line]⟩)
      | none => (st.1, some ⟨qid, line, [line]⟩)
    | none =>
      match st.2 with
      | some it => (st.1, some { it with lines := it.lines ++ [line] })
      | none => st

/-- Source `_parse_questions` (before context enhancement): split the full text on
newlines, run the state machine, flush the last open item. -/
def parse_questions (full_text : String) : List Question :=
  let lines := (splitLines full_text.data).map fun l => (⟨l⟩ : String)
  let st := lines.foldl parseStep ([], none)
  closeItem st.1 st.2

/-- A text block of a page (text already trimmed by extraction). -/
structure Block where
  text : String
deriving Repr, DecidableEq

/-- One page of the extracted document: its 1-based number, text blocks in
order, the data grids of its tables, and how many images it has. -/
structure Page where
  page_number : Nat
  blocks : List Block
  tables : List (List (List String))
  images : Nat
deriving Repr, DecidableEq

/-- A detected scenario passage; `block_num` is the index of the start
block among the page's text blocks. -/
structure Scenario where
  text : String
  page : Nat
  block_num : Nat
deriving Repr, DecidableEq

structure StructuredContent where
  pages : List Page
  questions : List Question
  scenarios : List Scenario
  full_text : String
deriving Repr, DecidableEq

def scenario_indicator_phrases : List String :=
  ["following scenario", "case study", "consider the following",
   "given the following", "background:", "context:", "scenario:"]

/-- Source `_is_question_start`: any of the seven line patterns matches the
stripped text. -/
def is_question_start (text : String) : Bool :=
  (markerMatch (stripChars text.data)).isSome

/-- Source `_is_scenario_block`: explicit indicator phrase, or numbered
non-question, or long non-item non-question paragraph. -/
def is_scenario_block (text : String) : Bool :=
  if scenario_indicator_phrases.any (fun p => substrL p.data (lowerL text.data)) then
    true
  else if (matchNumDot (stripChars text.data)).isSome && !(is_actual_question text) then
    true
  else if text.data.length > 200 && !(is_question_start text)
          && !(is_actual_question text) then
    true
  else false

/-- The absorption loop of `_identify_scenarios`: from index `j` up to
(excluding) `stop`, take block texts until the first question start. -/
def absorb (blocks : List Block) (j stop : Nat) : List String :=
  if h : j < blocks.length ∧ j < stop then
    let t := (blocks.get ⟨j, h.1⟩).text
    if is_question_start t then [] else t :: absorb blocks (j + 1) stop
  else []
termination_by stop - j

/-- The scenario emitted for block index `i` of a page, when block `i` is
a scenario start: its text is the start block joined with up to two
absorbed following blocks. -/
def scenAt (p : Page) (i : Nat) : Option Scenario :=
  match p.blocks.get? i with
  | some b =>
    if is_scenario_block b.text then
      some { text := joinBB (b.text :: absorb p.blocks (i + 1) (i + 3)),
             page := p.page_number, block_num := i }
    else none
  | none => none

/-- Scenarios detected on one page: one per scenario-start block. -/
def scenariosOfPage (p : Page) : List Scenario :=
  (List.range p.blocks.length).filterMap (scenAt p)

/-- Source `_identify_scenarios`: pages in order, appending each page's scenarios. -/
def identify_scenarios (pages : List Page) : List Scenario :=
  pages.foldl (fun acc p => acc ++ scenariosOfPage p) []

def table_reference_keywords : List String :=
  ["table", "trial balance", "balance sheet", "given below",
   "following data", "from the", "using the data"]

def image_reference_keywords : List String :=
  ["figure", "diagram", "chart", "graph", "image",
   "picture", "illustration", "shown"]

/-- All table grids of the document, in page order (`all_tables`). -/
def allTables (pages : List Page) : List (List (List String)) :=
  pages.foldl (fun a p => a ++ p.tables) []

/-- Source `_enhance_question_context` as a function from question to question. -/
def enhance_question_context (pages : List Page) (scenarios : List Scenario)
    (q : Question) : Question :=
  let ql := pyLower q.text
  let q :=
    if table_reference_keywords.any (fun k => substrL k.data ql.data)
       && allTables pages ≠ [] then
      { q with has_table := true }
    else q
  let q :=
    if image_reference_keywords.any (fun k => substrL k.data ql.data)
       && pages.any (fun p => p.images > 0) then
      { q with has_image := true }
    else q
  if scenarios.length > 0 then { q with has_scenario := true } else q

/-- The page text: block texts joined by blank lines (extraction builds it
this way from the non-empty trimmed blocks). -/
def pageText (p : Page) : String := joinBB (p.blocks.map Block.text)

/-- Document `full_text`: page texts joined by blank lines. -/
def fullTextOf (pages : List Page) : String := joinBB (pages.map pageText)

/-- Source `extract_structured_content` restricted to the structuring core: the
document inventory plus detected scenarios and parsed, enhanced questions. -/
def extract_structured_content (pages : List Page) : StructuredContent :=
  let ft := fullTextOf pages
  let scens := identify_scenarios pages
  let qs := (parse_questions ft).map (enhance_question_context pages scens)
  { pages := pages, questions := qs, scenarios := scens, full_text := ft }

inductive ChunkMeta where
  | question (question_id : String)
      (has_scenario has_table has_image : Bool) (question_only : String)
  | scenario (page : Nat)
deriving Repr, DecidableEq

structure Chunk where
  text : String
  meta : ChunkMeta
deriving Repr, DecidableEq

/-- Source `_format_table_as_text`: rows joined by `" | "`, falsy cells rendered
as the empty string, rows joined by newlines. -/
def format_table_as_text (data : List (List String)) : String :=
  if data = [] then ""
  else joinNL (data.map fun row =>
    String.intercalate " | " (row.map fun c => if c = "" then "" else c))

/-- Source `_find_relevant_scenario`: the last scenario's text, when the question
is flagged and any scenario exists. -/
def find_relevant_scenario (q : Question) (scenarios : List Scenario) :
    Option String :=
  if q.has_scenario then (scenarios.getLast?).map Scenario.text else none

/-- Source `_find_relevant_table`: the last table of the document, formatted, when
the question is flagged and any table exists. -/
def find_relevant_table (q : Question) (pages : List Page) : Option String :=
  if q.has_table then (allTables pages).getLast?.map format_table_as_text
  else none

/-- A conditional section of the chunk text: present with its header only
when the candidate text is truthy (non-`None` and non-empty). -/
def sectionOf (header : String) (o : Option String) : List String :=
  match o with
  | some s => if s = "" then [] else [header ++ s]
  | none => []

/-- The `chunk_text_parts` list of `create_question_chunks` for one
question: scenario section, then table section, then the question section. -/
def chunkParts (sc : StructuredContent) (q : Question) : List String :=
  sectionOf "Context/Scenario:\n" (find_relevant_scenario q sc.scenarios) ++
  sectionOf "Table:\n" (find_relevant_table q sc.pages) ++
  ["Question: " ++ q.text]

/-- The chunk built for one question. -/
def questionChunk (sc : StructuredContent) (q : Question) : Chunk :=
  { text := joinBB (chunkParts sc q),
    meta := .question q.id q.has_scenario q.has_table q.has_image q.text }

/-- The standalone chunk built for a scenario. -/
def standaloneChunk (s : Scenario) : Chunk :=
  { text := "Context/Background:\n" ++ s.text, meta := .scenario s.page }

/-- One iteration of the standalone-scenario loop: append the scenario's
chunk unless its text is already a substring of an accumulated chunk. -/
def addStandalone (acc : List Chunk) (s : Scenario) : List Chunk :=
  if acc.any (fun c => substrS s.text c.text) then acc
  else acc ++ [standaloneChunk s]

/-- Source `create_question_chunks`: question chunks in question order, then the
standalone-scenario loop over the growing chunk list. -/
def create_question_chunks (sc : StructuredContent) : List Chunk :=
  sc.scenarios.foldl addStandalone (sc.questions.map (questionChunk sc))

/-! ## Concrete documents and predicates used by the claims -/

/-- The three-line document of §8 / claim C1. -/
def claim1_doc : String :=
  "1. The firm had the following transactions:\na) Invested $1,000.\nb) Explain why revenue was recognized."

/-- C5 counterexample data: a question flagged `has_table` inside a
document whose only table has one row of zero cells, which formats to the
empty string. -/
def claim5_q : Question :=
  { id := "1.", full_line := "1. Use the table", text := "1. Use the table",
    has_table := true }

def claim5_sc : StructuredContent :=
  { pages := [⟨1, [], [[[]]], 0⟩], questions := [claim5_q], scenarios := [],
    full_text := "" }

/-- C5 (witness): with a scenario, a non-degenerate table and a fully
flagged question, the amended composition holds at a concrete document. -/
def claim5_wq : Question :=
  { id := "2.", full_line := "2. Use the table", text := "2. Use the table",
    has_scenario := true, has_table := true }

def claim5_wsc : StructuredContent :=
  { pages := [⟨1, [], [[["Cash", "100"], ["Rent", ""]]], 0⟩],
    questions := [claim5_wq],
    scenarios := [⟨"Background: the firm.", 1, 0⟩], full_text := "" }

/-- C6 (witness): the characterization instantiated at a one-scenario
document. -/
def claim6_sc : StructuredContent :=
  { pages := [], questions := [], scenarios := [⟨"Background: facts.", 1, 0⟩],
    full_text := "" }

/-- Invariant of the parser's open item: its accumulated lines are a
non-empty list of non-empty strings. -/
def linesOK : Option OpenItem → Prop
  | none => True
  | some it => it.lines ≠ [] ∧ ∀ l ∈ it.lines, l ≠ ""

/-- C4 counterexample data: a single 250-character block starting with the
interrogative word "What" and containing no '?'. -/
def claim4_blk : String := "What " ++ ⟨List.replicate 245 'x'⟩

def claim4_pg : Page := ⟨1, [⟨claim4_blk⟩], [], 0⟩

/-- C4 (witness): a 250-character block of 'x's (not an item start, first
content word neither interrogative nor imperative) yields exactly one
Scenario containing it. -/
def claim4_wblk : String := ⟨List.replicate 250 'x'⟩

def claim4_wpg : Page := ⟨1, [⟨claim4_wblk⟩], [], 0⟩

/-- C7 (witness): a page whose first block is a scenario start followed by
one plain block, an item start and a trailing block: the absorption stops
at the item start and one scenario is emitted. -/
def claim7_pg : Page :=
  ⟨1, [⟨"Background: the firm."⟩, ⟨"It grew."⟩, ⟨"a) Compute x."⟩,
    ⟨"More text."⟩], [], 0⟩

/-- A chunk-text section is well formed: it is one of the four section
headers followed by non-empty content. -/
def goodPart (part : String) : Prop :=
  (∃ c : String, c ≠ "" ∧ part = "Context/Scenario:\n" ++ c) ∨
  (∃ c : String, c ≠ "" ∧ part = "Table:\n" ++ c) ∨
  (∃ c : String, c ≠ "" ∧ part = "Context/Background:\n" ++ c) ∨
  (∃ c : String, c ≠ "" ∧ part = "Question: " ++ c)

/-- C8 (witness): a one-block document yields a chunk whose sections are
all well formed. -/
def claim8_pages : List Page := [⟨1, [⟨"1. Explain depreciation."⟩], [], 0⟩]

/-! ## Basic lemmas about the helpers -/

theorem string_eq_empty_of_data (s : String) (h : s.data = []) : s = "" := by
  cases s with
  | mk d => cases h; rfl

theorem interL_cons (sep x : Chars) (xs : List Chars) :
    ∃ t, interL sep (x :: xs) = x ++ t := by
  cases xs with
  | nil => exact ⟨[], by simp [interL]⟩
  | cons y ys => exact ⟨sep ++ interL sep (y :: ys), by simp [interL]⟩

theorem interL_cons_ne (sep x : Chars) (xs : List Chars) (hx : x ≠ []) :
    interL sep (x :: xs) ≠ [] := by
  obtain ⟨t, ht⟩ := interL_cons sep x xs
  rw [ht]
  intro h
  exact hx (List.append_eq_nil.mp h).1

theorem joinNL_cons_ne (x : String) (xs : List String) (hx : x ≠ "") :
    joinNL (x :: xs) ≠ "" := by
  intro h
  have hd : interL ['\n'] (x.data :: xs.map String.data) = [] := by
    simpa [joinNL] using congrArg String.data h
  exact interL_cons_ne _ _ _ (fun he => hx (string_eq_empty_of_data x he)) hd

theorem joinBB_cons_ne (x : String) (xs : List String) (hx : x ≠ "") :
    joinBB (x :: xs) ≠ "" := by
  intro h
  have hd : interL ['\n', '\n'] (x.data :: xs.map String.data) = [] := by
    simpa [joinBB] using congrArg String.data h
  exact interL_cons_ne _ _ _ (fun he => hx (string_eq_empty_of_data x he)) hd

theorem startsWithL_self_append (n t : Chars) : startsWithL n (n ++ t) = true := by
  induction n with
  | nil => rfl
  | cons a as ih => simp [startsWithL, ih]

theorem substrL_of_startsWithL (n h : Chars) (hs : startsWithL n h = true) :
    substrL n h = true := by
  cases h with
  | nil =>
    cases n with
    | nil => rfl
    | cons a as => simp [startsWithL] at hs
  | cons c t => simp [substrL, hs]

/-- The head string of a blank-line join occurs in it as a substring. -/
theorem substrS_joinBB_head (x : String) (xs : List String) :
    substrS x (joinBB (x :: xs)) = true := by
  obtain ⟨t, ht⟩ := interL_cons ['\n', '\n'] x.data (xs.map String.data)
  show substrL x.data (interL ['\n', '\n'] (x.data :: xs.map String.data)) = true
  rw [ht]
  exact substrL_of_startsWithL _ _ (startsWithL_self_append _ _)

theorem addStandalone_eq (acc : List Chunk) (s : Scenario) :
    addStandalone acc s =
      acc ++ (if acc.any (fun c => substrS s.text c.text) then []
              else [standaloneChunk s]) := by
  unfold addStandalone
  split <;> simp_all

theorem foldl_addStandalone_suffix (l : List Scenario) (init : List Chunk) :
    ∃ suf, l.foldl addStandalone init = init ++ suf := by
  induction l generalizing init with
  | nil => exact ⟨[], by simp⟩
  | cons s rest ih =>
    obtain ⟨suf, hs⟩ := ih (addStandalone init s)
    rw [List.foldl_cons, hs, addStandalone_eq, List.append_assoc]
    exact ⟨_, rfl⟩

theorem mem_foldl_addStandalone_of_mem {c : Chunk} {init : List Chunk}
    (l : List Scenario) (h : c ∈ init) : c ∈ l.foldl addStandalone init := by
  obtain ⟨suf, hs⟩ := foldl_addStandalone_suffix l init
  rw [hs]
  exact List.mem_append_left _ h

theorem mem_foldl_addStandalone_cases :
    ∀ (l : List Scenario) (init : List Chunk) (c : Chunk),
      c ∈ l.foldl addStandalone init →
      c ∈ init ∨ ∃ s ∈ l, c = standaloneChunk s := by
  intro l
  induction l with
  | nil => exact fun init c h => Or.inl h
  | cons s rest ih =>
    intro init c h
    rw [List.foldl_cons] at h
    rcases ih _ c h with h1 | ⟨s', hs', he⟩
    · rw [addStandalone_eq] at h1
      rcases List.mem_append.mp h1 with h2 | h2
      · exact .inl h2
      · split at h2
        · simp at h2
        · simp only [List.mem_singleton] at h2
          exact .inr ⟨s, by simp, h2⟩
    · exact .inr ⟨s', by simp [hs'], he⟩

/-! ## Lemmas about the scenario detector -/

/-- The absorption loop takes, from the blocks after `j` and up to the
window bound, block texts up to the first question start. -/
theorem absorb_eq (blocks : List Block) : ∀ (k j : Nat),
    absorb blocks j (j + k) =
      (((blocks.drop j).take k).map Block.text).takeWhile
        (fun t => !is_question_start t) := by
  intro k
  induction k with
  | zero =>
    intro j
    rw [absorb]
    simp
  | succ k ih =>
    intro j
    by_cases hj : j < blocks.length
    · have hcond : j < blocks.length ∧ j < j + (k + 1) := ⟨hj, by omega⟩
      rw [absorb, dif_pos hcond, List.drop_eq_getElem_cons hj]
      simp only [List.take_succ_cons, List.map_cons, List.takeWhile_cons,
        List.get_eq_getElem]
      cases hq : is_question_start blocks[j].text with
      | true => simp [hq]
      | false =>
        have hstep : (j + 1) + k = j + (k + 1) := by omega
        have hrec := ih (j + 1)
        rw [hstep] at hrec
        simp only [hq, Bool.not_false, if_true, if_false, Bool.false_eq_true]
        rw [hrec]
    · have hcond : ¬(j < blocks.length ∧ j < j + (k + 1)) := fun h => hj h.1
      rw [absorb, dif_neg hcond, List.drop_eq_nil_of_le (Nat.le_of_not_lt hj)]
      rfl

theorem scenAt_block_num (p : Page) (i : Nat) (s : Scenario)
    (h : scenAt p i = some s) : s.block_num = i := by
  unfold scenAt at h
  split at h
  · split at h
    · cases Option.some.inj h
      rfl
    · cases h
  · cases h

theorem scenAt_eq_some (p : Page) (i : Nat) (hi : i < p.blocks.length)
    (hs : is_scenario_block ((p.blocks.get ⟨i, hi⟩).text) = true) :
    scenAt p i = some
      { text := joinBB ((p.blocks.get ⟨i, hi⟩).text :: absorb p.blocks (i + 1) (i + 3)),
        page := p.page_number, block_num := i } := by
  unfold scenAt
  split
  · rename_i b heq
    rw [List.get?_eq_get hi] at heq
    cases Option.some.inj heq
    rw [if_pos hs]
  · rename_i heq
    rw [List.get?_eq_get hi] at heq
    cases heq

theorem map_block_num_filterMap (p : Page) : ∀ l : List Nat,
    ((l.filterMap (scenAt p)).map Scenario.block_num) =
      l.filter (fun i => (scenAt p i).isSome) := by
  intro l
  induction l with
  | nil => rfl
  | cons i rest ih =>
    cases hg : scenAt p i with
    | none => simp [List.filterMap_cons, hg, ih, List.filter_cons]
    | some s =>
      have hbn := scenAt_block_num p i s hg
      simp [List.filterMap_cons, hg, ih, List.filter_cons, hbn]

/-- Exactly one scenario per detected start: among the page's scenarios
exactly one carries the start index `i`. -/
theorem count_scenariosOfPage (p : Page) (i : Nat) (hi : i < p.blocks.length)
    (hs : is_scenario_block ((p.blocks.get ⟨i, hi⟩).text) = true) :
    ((scenariosOfPage p).map Scenario.block_num).count i = 1 := by
  rw [scenariosOfPage, map_block_num_filterMap]
  apply List.count_eq_one_of_mem ((List.nodup_range _).filter _)
  rw [List.mem_filter]
  refine ⟨List.mem_range.mpr hi, ?_⟩
  rw [scenAt_eq_some p i hi hs]
  rfl

theorem mem_identify_scenarios {s : Scenario} {p : Page} (pages : List Page)
    (hp : p ∈ pages) (hs : s ∈ scenariosOfPage p) :
    s ∈ identify_scenarios pages := by
  suffices h : ∀ (pgs : List Page) (acc : List Scenario),
      (s ∈ acc ∨ ∃ q ∈ pgs, s ∈ scenariosOfPage q) →
      s ∈ pgs.foldl (fun a q => a ++ scenariosOfPage q) acc by
    exact h pages [] (Or.inr ⟨p, hp, hs⟩)
  intro pgs
  induction pgs with
  | nil =>
    intro acc h
    rcases h with h | ⟨q, hq, _⟩
    · exact h
    · simp at hq
  | cons q rest ih =>
    intro acc h
    rw [List.foldl_cons]
    apply ih
    rcases h with h | ⟨r, hr, hsr⟩
    · exact Or.inl (List.mem_append_left _ h)
    · rcases List.mem_cons.mp hr with rfl | hr'
      · exact Or.inl (List.mem_append_right _ hsr)
      · exact Or.inr ⟨r, hr', hsr⟩

theorem mem_identify_scenarios_cases (pages : List Page) (s : Scenario)
    (h : s ∈ identify_scenarios pages) : ∃ p ∈ pages, s ∈ scenariosOfPage p := by
  suffices haux : ∀ (pgs : List Page) (acc : List Scenario),
      s ∈ pgs.foldl (fun a q => a ++ scenariosOfPage q) acc →
      s ∈ acc ∨ ∃ p ∈ pgs, s ∈ scenariosOfPage p by
    rcases haux pages [] h with h' | h'
    · simp at h'
    · exact h'
  intro pgs
  induction pgs with
  | nil => exact fun acc h' => Or.inl h'
  | cons q rest ih =>
    intro acc h'
    rw [List.foldl_cons] at h'
    rcases ih _ h' with h'' | ⟨r, hr, hsr⟩
    · rcases List.mem_append.mp h'' with h3 | h3
      · exact Or.inl h3
      · exact Or.inr ⟨q, by simp, h3⟩
    · exact Or.inr ⟨r, by simp [hr], hsr⟩

/-! ## Claims about the question parser and the question-text classifier -/

/-- C1 (counterexample): on the three-line document the parser emits two
Questions, not one — the numeric header line passes the question-text
classifier through rule 6 (short, no transaction verb, no dollar sign), so
the claimed single Question with id "b)" is wrong. -/
theorem claim1_cex :
    (parse_questions claim1_doc).length = 2 ∧
    (parse_questions claim1_doc).map Question.id = ["1.", "b)"] :=
  ⟨rfl, rfl⟩

/-- C1 (amended): on the three-line document the parser emits exactly two
Questions, the first with id "1." and text the numeric header line (it is
classified as a question by rule 6), the second with id "b)" and text the
"b)" line; the "a)" item is discarded by rule 4. -/
theorem claim1_amended :
    (parse_questions claim1_doc).map (fun q => (q.id, q.text)) =
      [("1.", "1. The firm had the following transactions:"),
       ("b)", "b) Explain why revenue was recognized.")] :=
  rfl

/-- C2 (counterexample): a roman-numeral line under 100 characters whose
first content word is "identify" — an imperative of §4.2 rule 3 — IS
merged into the open item: `_is_sub_item` checks only ten imperatives, not
the twenty of the claim, so the parser keeps accumulating and emits one
merged Question instead of closing the item. -/
theorem claim2_cex :
    imperative_words.contains "identify" = true ∧
    is_sub_item "ii)" "ii) identify the errors" = true ∧
    (parse_questions "1. What should the auditor do?\nii) identify the errors").map
        (fun q => (q.id, q.text)) =
      [("1.", "1. What should the auditor do?\nii) identify the errors")] :=
  ⟨rfl, rfl, rfl⟩

/-- C2 (amended): while an item is open, a marker line is merged as a
sub-item iff its marker id is exactly roman numerals followed by '.' or
')', the line is under 100 characters, and its first content word after
stripping the roman marker is none of the seven interrogative words nor
the TEN imperative words explain/describe/define/compare/discuss/analyze/
evaluate/calculate/prepare/compute; merging appends the line to the open
item, otherwise the open item is closed and a new one opened. -/
theorem claim2_amended :
    (∀ question_id line : String,
      is_sub_item question_id line = true ↔
        (romanIdExact question_id = true ∧ line.data.length < 100 ∧
         firstWordOf (stripRoman line.data) ∉ interrogative_words ∧
         firstWordOf (stripRoman line.data) ∉ sub_item_imperatives))
    ∧ (∀ (st : ParseState) (it : OpenItem), st.2 = some it →
        ∀ (rawLine : String) (g : Chars), pyStrip rawLine ≠ "" →
          markerMatch (pyStrip rawLine).data = some g →
          is_sub_item ⟨stripChars g⟩ (pyStrip rawLine) = true →
          parseStep st rawLine =
            (st.1, some { it with lines := it.lines ++ [pyStrip rawLine] }))
    ∧ (∀ (st : ParseState) (it : OpenItem), st.2 = some it →
        ∀ (rawLine : String) (g : Chars), pyStrip rawLine ≠ "" →
          markerMatch (pyStrip rawLine).data = some g →
          is_sub_item ⟨stripChars g⟩ (pyStrip rawLine) = false →
          parseStep st rawLine =
            (closeItem st.1 (some it),
             some ⟨⟨stripChars g⟩, pyStrip rawLine, [pyStrip rawLine]⟩)) := by
  refine ⟨fun question_id line => ?_, ?_, ?_⟩
  · constructor
    · intro h
      unfold is_sub_item at h
      split_ifs at h with h1 h2 h3
      simp only [Bool.and_eq_true, Bool.not_eq_true'] at h3
      exact ⟨h1, h2, by simpa using h3.1, by simpa using h3.2⟩
    · rintro ⟨h1, h2, h3, h4⟩
      unfold is_sub_item
      rw [if_pos h1, if_pos h2, if_pos (by simp [h3, h4])]
  · rintro ⟨qs, o⟩ it h rawLine g hne hm hsub
    simp only at h; subst h
    simp only [parseStep, if_neg hne, hm, hsub, if_pos]
  · rintro ⟨qs, o⟩ it h rawLine g hne hm hsub
    simp only at h; subst h
    simp only [parseStep, if_neg hne, hm, hsub, Bool.false_eq_true, if_neg,
      if_false]

/-- C2 (witness): with an item open, the roman line "ii) cash paid" (first
content word "cash", in neither vocabulary) is appended to the open item
without closing it. -/
theorem claim2_witness :
    parseStep ([], some ⟨"1.", "1. Explain this?", ["1. Explain this?"]⟩)
        "ii) cash paid" =
      ([], some ⟨"1.", "1. Explain this?", ["1. Explain this?", "ii) cash paid"]⟩) :=
  claim2_amended.2.1 ([], some ⟨"1.", "1. Explain this?", ["1. Explain this?"]⟩)
    ⟨"1.", "1. Explain this?", ["1. Explain this?"]⟩ rfl
    "ii) cash paid" "ii) ".data (by decide) rfl rfl

/-- C3: rule 1 is evaluated first, so any text containing '?' is classified
as a question no matter what else it contains; and the three §8 example
evaluations hold. -/
theorem claim3_holds :
    (∀ text : String, text.data.contains '?' = true →
        is_actual_question text = true)
    ∧ is_actual_question "What is the capital of France?" = true
    ∧ is_actual_question "Invested $5,000 cash in the business." = false
    ∧ is_actual_question "Explain the going concern assumption." = true := by
  refine ⟨fun text h => ?_, rfl, rfl, rfl⟩
  simp only [is_actual_question]
  simp [show '?' ∈ text.data by simpa using h]

/-- C3 (witness): a text with '?', a dollar amount and a past-tense
transaction verb is still classified as a question. -/
theorem claim3_witness : is_actual_question "Invested $9,000 where? here" = true :=
  claim3_holds.1 "Invested $9,000 where? here" (by decide)

/-- C10: on a text whose marker-stripped remainder is empty the first-word
inspection is total (first word is ''), and any such text shorter than 100
characters with no '$' and no transaction-verb substring is classified as
a question. -/
theorem claim10_holds (t : String) (h0 : stripMarker t.data = [])
    (h1 : t.data.length < 100) (h2 : t.data.contains '$' = false)
    (h3 : (transaction_indicators.any fun w => substrL w.data (lowerL t.data)) = false) :
    is_actual_question t = true := by
  have hfw : firstWordOf (stripMarker t.data) = "" := by rw [h0]; rfl
  have e1 : interrogative_words.contains "" = false := by decide
  have e2 : imperative_words.contains "" = false := by decide
  have e3 : transaction_indicators.contains "" = false := by decide
  have htake : (t.data.take 50).contains '$' = false := by
    by_contra hc
    rw [Bool.not_eq_false] at hc
    have hmem : '$' ∈ t.data := List.mem_of_mem_take (by simpa using hc)
    simp [hmem] at h2
  cases hq : t.data.contains '?' with
  | true =>
    simp only [is_actual_question]
    simp [show '?' ∈ t.data by simpa using hq]
  | false =>
    simp only [is_actual_question]
    simp only [hfw, e1, e2, e3, htake, h3]
    simp
    refine Or.inr ⟨by simpa using h1, by simpa using h2⟩

/-- C10 (witness): the bare text "1." is classified as a question. -/
theorem claim10_witness : is_actual_question "1." = true :=
  claim10_holds "1." (by decide) (by decide) (by decide) (by decide)

/-! ## Claims about the chunk synthesizer -/

/-- C5 (counterexample): `has_table` is set and a table exists in the
document, yet the chunk has no "Table:" section at all — the table's
formatted text is empty and the synthesizer's truthiness test drops the
section, contradicting the claimed unconditional inclusion. -/
theorem claim5_cex :
    claim5_q.has_table = true ∧
    allTables claim5_sc.pages ≠ [] ∧
    (create_question_chunks claim5_sc).map Chunk.text =
      ["Question: 1. Use the table"] ∧
    substrS "Table:" "Question: 1. Use the table" = false :=
  ⟨rfl, by decide, rfl, rfl⟩

/-- C5 (amended): provided every detected Scenario has non-empty text (true
of all pipeline-produced scenarios), the question-chunk's text is the
blank-line join of: the "Context/Scenario:" section with the LAST
scenario's text when `has_scenario` is set and scenarios exist; the
"Table:" section with the LAST table formatted when `has_table` is set,
tables exist AND the formatted table text is non-empty; and always the
"Question: " section with the question's text. -/
theorem claim5_amended (sc : StructuredContent) (q : Question)
    (hq : q ∈ sc.questions) (hs : ∀ s ∈ sc.scenarios, s.text ≠ "") :
    questionChunk sc q ∈ create_question_chunks sc ∧
    (questionChunk sc q).text = joinBB (
      (if q.has_scenario = true ∧ sc.scenarios ≠ [] then
        ["Context/Scenario:\n" ++ ((sc.scenarios.getLast?.map Scenario.text).getD "")]
      else []) ++
      (if q.has_table = true ∧ allTables sc.pages ≠ [] ∧
          format_table_as_text ((allTables sc.pages).getLast?.getD []) ≠ "" then
        ["Table:\n" ++ format_table_as_text ((allTables sc.pages).getLast?.getD [])]
      else []) ++
      ["Question: " ++ q.text]) := by
  constructor
  · exact mem_foldl_addStandalone_of_mem _ (List.mem_map_of_mem _ hq)
  · have hA : sectionOf "Context/Scenario:\n"
        (find_relevant_scenario q sc.scenarios) =
        (if q.has_scenario = true ∧ sc.scenarios ≠ [] then
          ["Context/Scenario:\n" ++ ((sc.scenarios.getLast?.map Scenario.text).getD "")]
        else []) := by
      cases hhs : q.has_scenario with
      | false => simp [find_relevant_scenario, sectionOf, hhs]
      | true =>
        cases hlast : sc.scenarios.getLast? with
        | none =>
          have : sc.scenarios = [] := List.getLast?_eq_none_iff.mp hlast
          simp [find_relevant_scenario, sectionOf, hhs, hlast, this]
        | some s =>
          have hmem : s ∈ sc.scenarios := List.mem_of_mem_getLast? hlast
          have hne : sc.scenarios ≠ [] := by
            intro he
            rw [he] at hlast
            simp at hlast
          simp [find_relevant_scenario, sectionOf, hhs, hlast, hne, hs s hmem]
    have hB : sectionOf "Table:\n" (find_relevant_table q sc.pages) =
        (if q.has_table = true ∧ allTables sc.pages ≠ [] ∧
            format_table_as_text ((allTables sc.pages).getLast?.getD []) ≠ "" then
          ["Table:\n" ++ format_table_as_text ((allTables sc.pages).getLast?.getD [])]
        else []) := by
      cases hht : q.has_table with
      | false => simp [find_relevant_table, sectionOf, hht]
      | true =>
        cases hlast : (allTables sc.pages).getLast? with
        | none =>
          have : allTables sc.pages = [] := List.getLast?_eq_none_iff.mp hlast
          simp [find_relevant_table, sectionOf, hht, hlast, this]
        | some d =>
          have hne : allTables sc.pages ≠ [] := by
            intro he
            rw [he] at hlast
            simp at hlast
          by_cases hfmt : format_table_as_text d = ""
          · simp [find_relevant_table, sectionOf, hht, hlast, hne, hfmt]
          · simp [find_relevant_table, sectionOf, hht, hlast, hne, hfmt]
    show joinBB (chunkParts sc q) = _
    rw [chunkParts, hA, hB]

theorem claim5_witness :
    questionChunk claim5_wsc claim5_wq ∈ create_question_chunks claim5_wsc ∧
    (questionChunk claim5_wsc claim5_wq).text = joinBB (
      (if claim5_wq.has_scenario = true ∧ claim5_wsc.scenarios ≠ [] then
        ["Context/Scenario:\n" ++
          ((claim5_wsc.scenarios.getLast?.map Scenario.text).getD "")]
      else []) ++
      (if claim5_wq.has_table = true ∧ allTables claim5_wsc.pages ≠ [] ∧
          format_table_as_text ((allTables claim5_wsc.pages).getLast?.getD []) ≠ "" then
        ["Table:\n" ++ format_table_as_text ((allTables claim5_wsc.pages).getLast?.getD [])]
      else []) ++
      ["Question: " ++ claim5_wq.text]) :=
  claim5_amended claim5_wsc claim5_wq (by decide) (by decide)

/-- C6: taking scenarios in order, scenario k yields a standalone chunk
(appended to the accumulated list) iff its full text is a substring of no
chunk produced before it — question chunks and earlier standalone
scenario chunks alike; and a scenario whose text occurs inside some
question-chunk never yields one. The third conjunct ties the fold to the
actual chunk list. -/
theorem claim6_holds (sc : StructuredContent) (k : Nat)
    (hk : k < sc.scenarios.length) :
    ((sc.scenarios.take (k + 1)).foldl addStandalone
        (sc.questions.map (questionChunk sc)) =
      ((sc.scenarios.take k).foldl addStandalone
        (sc.questions.map (questionChunk sc))) ++
        [standaloneChunk (sc.scenarios.get ⟨k, hk⟩)]
     ↔ ∀ c ∈ (sc.scenarios.take k).foldl addStandalone
          (sc.questions.map (questionChunk sc)),
        substrS (sc.scenarios.get ⟨k, hk⟩).text c.text = false)
    ∧ ((∃ c ∈ sc.questions.map (questionChunk sc),
          substrS (sc.scenarios.get ⟨k, hk⟩).text c.text = true) →
        (sc.scenarios.take (k + 1)).foldl addStandalone
            (sc.questions.map (questionChunk sc)) =
          (sc.scenarios.take k).foldl addStandalone
            (sc.questions.map (questionChunk sc)))
    ∧ create_question_chunks sc =
        sc.scenarios.foldl addStandalone (sc.questions.map (questionChunk sc)) := by
  have htake : sc.scenarios.take (k + 1) =
      sc.scenarios.take k ++ [sc.scenarios.get ⟨k, hk⟩] := by
    rw [List.take_succ]
    congr 1
    simp [List.getElem?_eq_getElem hk]
  have hfold : (sc.scenarios.take (k + 1)).foldl addStandalone
      (sc.questions.map (questionChunk sc)) =
      addStandalone ((sc.scenarios.take k).foldl addStandalone
        (sc.questions.map (questionChunk sc))) (sc.scenarios.get ⟨k, hk⟩) := by
    rw [htake, List.foldl_append]
    rfl
  refine ⟨?_, ?_, rfl⟩
  · rw [hfold, addStandalone_eq]
    cases hany : ((sc.scenarios.take k).foldl addStandalone
        (sc.questions.map (questionChunk sc))).any
        (fun c => substrS (sc.scenarios.get ⟨k, hk⟩).text c.text) with
    | false =>
      have hall := List.any_eq_false.mp hany
      simp only [hany, Bool.false_eq_true, if_false]
      constructor
      · intro _ c hc
        simpa using hall c hc
      · intro _
        trivial
    | true =>
      obtain ⟨c, hc, hcp⟩ := List.any_eq_true.mp hany
      simp only [hany, if_true, List.append_nil]
      constructor
      · intro he
        exfalso
        have hlen := congrArg List.length he
        simp at hlen
      · intro hall
        have h1 := hall c hc
        rw [h1] at hcp
        exact absurd hcp (by decide)
  · rintro ⟨c, hc, hsub⟩
    have hcprev : c ∈ (sc.scenarios.take k).foldl addStandalone
        (sc.questions.map (questionChunk sc)) :=
      mem_foldl_addStandalone_of_mem _ hc
    have hany : ((sc.scenarios.take k).foldl addStandalone
        (sc.questions.map (questionChunk sc))).any
        (fun c => substrS (sc.scenarios.get ⟨k, hk⟩).text c.text) = true :=
      List.any_eq_true.mpr ⟨c, hcprev, hsub⟩
    rw [hfold, addStandalone_eq, hany]
    simp

/-! ## Parser and pipeline invariants -/

theorem forall_mem_singleton {P : String → Prop} {x : String} (h : P x) :
    ∀ l ∈ [x], P l := by
  intro l hl
  simp only [List.mem_singleton] at hl
  rw [hl]
  exact h

theorem forall_mem_append_singleton {P : String → Prop} {ls : List String}
    {x : String} (h1 : ∀ l ∈ ls, P l) (h2 : P x) : ∀ l ∈ ls ++ [x], P l := by
  intro l hl
  rcases List.mem_append.mp hl with h | h
  · exact h1 l h
  · simp only [List.mem_singleton] at h
    rw [h]
    exact h2

theorem closeItem_text_ne (qs : List Question) (o : Option OpenItem)
    (hqs : ∀ q ∈ qs, q.text ≠ "") (ho : linesOK o) :
    ∀ q ∈ closeItem qs o, q.text ≠ "" := by
  cases o with
  | none => exact hqs
  | some it =>
    intro q hq
    have hc : closeItem qs (some it) =
        if is_actual_question (joinNL it.lines) = true then
          qs ++ [{ id := it.qid, full_line := it.firstLine,
                   text := joinNL it.lines }]
        else qs := rfl
    rw [hc] at hq
    by_cases hact : is_actual_question (joinNL it.lines) = true
    · rw [if_pos hact] at hq
      rcases List.mem_append.mp hq with h | h
      · exact hqs q h
      · simp only [List.mem_singleton] at h
        rw [h]
        show joinNL it.lines ≠ ""
        cases hl : it.lines with
        | nil => exact absurd hl ho.1
        | cons x xs =>
          exact joinNL_cons_ne x xs (ho.2 x (by rw [hl]; simp))
    · rw [if_neg hact] at hq
      exact hqs q hq

theorem parseStep_inv (st : ParseState) (r : String)
    (hq : ∀ q ∈ st.1, q.text ≠ "") (ho : linesOK st.2) :
    (∀ q ∈ (parseStep st r).1, q.text ≠ "") ∧ linesOK (parseStep st r).2 := by
  obtain ⟨qs, o⟩ := st
  by_cases hline : pyStrip r = ""
  · simp only [parseStep, if_pos hline]
    exact ⟨hq, ho⟩
  · cases hm : markerMatch (pyStrip r).data with
    | none =>
      cases o with
      | none =>
        simp only [parseStep, if_neg hline, hm]
        exact ⟨hq, ho⟩
      | some it =>
        simp only [parseStep, if_neg hline, hm]
        exact ⟨hq, by simp, forall_mem_append_singleton ho.2 hline⟩
    | some g =>
      cases o with
      | none =>
        simp only [parseStep, if_neg hline, hm]
        exact ⟨hq, by simp, forall_mem_singleton hline⟩
      | some it =>
        cases hsub : is_sub_item ⟨stripChars g⟩ (pyStrip r) with
        | true =>
          simp only [parseStep, if_neg hline, hm, hsub, if_pos]
          exact ⟨hq, by simp, forall_mem_append_singleton ho.2 hline⟩
        | false =>
          simp only [parseStep, if_neg hline, hm, hsub, Bool.false_eq_true,
            if_false]
          exact ⟨closeItem_text_ne qs (some it) hq ho, by simp,
            forall_mem_singleton hline⟩

theorem foldl_parseStep_inv (lines : List String) : ∀ st : ParseState,
    (∀ q ∈ st.1, q.text ≠ "") → linesOK st.2 →
    (∀ q ∈ (lines.foldl parseStep st).1, q.text ≠ "") ∧
      linesOK (lines.foldl parseStep st).2 := by
  induction lines with
  | nil => exact fun st h1 h2 => ⟨h1, h2⟩
  | cons l rest ih =>
    intro st h1 h2
    rw [List.foldl_cons]
    obtain ⟨h1', h2'⟩ := parseStep_inv st l h1 h2
    exact ih _ h1' h2'

/-- Every question the parser emits has non-empty text. -/
theorem parse_questions_text_ne (ft : String) :
    ∀ q ∈ parse_questions ft, q.text ≠ "" := by
  obtain ⟨h1, h2⟩ := foldl_parseStep_inv
    ((splitLines ft.data).map fun l => (⟨l⟩ : String)) ([], none)
    (by simp) trivial
  exact closeItem_text_ne _ _ h1 h2

/-- Context enhancement does not change a question's text. -/
theorem enhance_text (pages : List Page) (scens : List Scenario)
    (q : Question) : (enhance_question_context pages scens q).text = q.text := by
  simp only [enhance_question_context]
  split_ifs <;> rfl

/-- When every block has non-empty text, every detected scenario has
non-empty text. -/
theorem identify_scenarios_text_ne (pages : List Page)
    (hb : ∀ p ∈ pages, ∀ b ∈ p.blocks, b.text ≠ "") :
    ∀ s ∈ identify_scenarios pages, s.text ≠ "" := by
  intro s hs
  obtain ⟨p, hp, hsp⟩ := mem_identify_scenarios_cases pages s hs
  rw [scenariosOfPage] at hsp
  obtain ⟨j, _, hjs⟩ := List.mem_filterMap.mp hsp
  unfold scenAt at hjs
  split at hjs
  · rename_i b heq
    split at hjs
    · cases Option.some.inj hjs
      exact joinBB_cons_ne _ _ (hb p hp b (List.get?_mem heq))
    · cases hjs
  · cases hjs

/-- A 250-character block with no '?' whose first content word is neither
interrogative nor imperative is rejected by the question-text classifier:
rules 1–3 fail, rules 4/5/7 answer false, and rule 6 is out of reach at
length 250. -/
theorem long_not_question (t : String) (hlen : t.data.length = 250)
    (hq : t.data.contains '?' = false)
    (hint : firstWordOf (stripMarker t.data) ∉ interrogative_words)
    (himp : firstWordOf (stripMarker t.data) ∉ imperative_words) :
    is_actual_question t = false := by
  have h100 : (decide (t.data.length < 100)) = false := by
    rw [hlen]
    rfl
  simp only [is_actual_question]
  simp [hq, hint, himp, h100]
  constructor
  · simpa using hq
  · intro _ _ hlt _
    exfalso
    rw [show t.length = t.data.length from rfl, hlen] at hlt
    omega

/-- C4 (counterexample): the block has length 250, no '?', and its first
word "what" is not an imperative verb, yet the Scenario Detector emits NO
scenario for the document: the interrogative first word makes the
question-text classifier accept the block, so the long-paragraph branch
rejects it as a scenario start. -/
theorem claim4_cex :
    claim4_blk.data.length = 250 ∧
    claim4_blk.data.contains '?' = false ∧
    firstWordOf (stripMarker claim4_blk.data) = "what" ∧
    imperative_words.contains "what" = false ∧
    identify_scenarios [claim4_pg] = [] :=
  ⟨by decide, by decide, by decide, by decide, rfl⟩

/-- C4 (amended): for every document block of length 250 with no '?' that
is not an item start and whose first content word is neither interrogative
nor imperative, the Scenario Detector emits exactly one Scenario starting
at that block, and that Scenario's text (on the document-wide list)
includes the block's text. -/
theorem claim4_amended (pages : List Page) (p : Page) (hp : p ∈ pages)
    (i : Nat) (hi : i < p.blocks.length)
    (hlen : (p.blocks.get ⟨i, hi⟩).text.data.length = 250)
    (hq : (p.blocks.get ⟨i, hi⟩).text.data.contains '?' = false)
    (hqs : is_question_start (p.blocks.get ⟨i, hi⟩).text = false)
    (hint : firstWordOf (stripMarker (p.blocks.get ⟨i, hi⟩).text.data) ∉
      interrogative_words)
    (himp : firstWordOf (stripMarker (p.blocks.get ⟨i, hi⟩).text.data) ∉
      imperative_words) :
    ((scenariosOfPage p).map Scenario.block_num).count i = 1
    ∧ ∃ s ∈ identify_scenarios pages, s.page = p.page_number ∧
        s.block_num = i ∧ substrS (p.blocks.get ⟨i, hi⟩).text s.text = true := by
  have hnq : is_actual_question (p.blocks.get ⟨i, hi⟩).text = false :=
    long_not_question _ hlen hq hint himp
  have hsb : is_scenario_block (p.blocks.get ⟨i, hi⟩).text = true := by
    unfold is_scenario_block
    by_cases hind : scenario_indicator_phrases.any
        (fun ph => substrL ph.data (lowerL (p.blocks.get ⟨i, hi⟩).text.data)) = true
    · rw [if_pos hind]
    · rw [if_neg hind]
      by_cases h2 : ((matchNumDot (stripChars (p.blocks.get ⟨i, hi⟩).text.data)).isSome
          && !(is_actual_question (p.blocks.get ⟨i, hi⟩).text)) = true
      · rw [if_pos h2]
      · rw [if_neg h2, if_pos (by
          have hq2 : is_question_start p.blocks[i].text = false := hqs
          have hn2 : is_actual_question p.blocks[i].text = false := hnq
          have hl2 : p.blocks[i].text.length = 250 := hlen
          simp [hq2, hn2, hl2])]
  refine ⟨count_scenariosOfPage p i hi hsb, ?_⟩
  refine ⟨⟨joinBB ((p.blocks.get ⟨i, hi⟩).text ::
      absorb p.blocks (i + 1) (i + 3)), p.page_number, i⟩,
    mem_identify_scenarios pages hp ?_, rfl, rfl, substrS_joinBB_head _ _⟩
  rw [scenariosOfPage]
  exact List.mem_filterMap.mpr ⟨i, List.mem_range.mpr hi, scenAt_eq_some p i hi hsb⟩

theorem claim4_witness :
    ((scenariosOfPage claim4_wpg).map Scenario.block_num).count 0 = 1
    ∧ ∃ s ∈ identify_scenarios [claim4_wpg], s.page = claim4_wpg.page_number ∧
        s.block_num = 0 ∧
        substrS (claim4_wpg.blocks.get ⟨0, by decide⟩).text s.text = true :=
  claim4_amended [claim4_wpg] claim4_wpg (by decide) 0 (by decide) (by decide)
    (by decide) (by decide) (by decide) (by decide)

/-- C7: for every block index at which a scenario start is detected,
exactly one Scenario is emitted for that start, and its text is the start
block's text followed by at most the next two same-page blocks' texts,
stopping at the first item start, all joined by blank lines. -/
theorem claim7_holds (p : Page) (i : Nat) (hi : i < p.blocks.length)
    (hs : is_scenario_block ((p.blocks.get ⟨i, hi⟩).text) = true) :
    ((scenariosOfPage p).map Scenario.block_num).count i = 1
    ∧ ∀ s ∈ scenariosOfPage p, s.block_num = i →
        s.page = p.page_number ∧
        s.text = joinBB ((p.blocks.get ⟨i, hi⟩).text ::
          (((p.blocks.drop (i + 1)).take 2).map Block.text).takeWhile
            (fun t => !is_question_start t)) := by
  refine ⟨count_scenariosOfPage p i hi hs, ?_⟩
  intro s hmem hbn
  rw [scenariosOfPage] at hmem
  obtain ⟨j, _, hjs⟩ := List.mem_filterMap.mp hmem
  have hji : j = i := (scenAt_block_num p j s hjs).symm.trans hbn
  subst hji
  rw [scenAt_eq_some p j hi hs] at hjs
  have habs : absorb p.blocks (j + 1) (j + 3) =
      (((p.blocks.drop (j + 1)).take 2).map Block.text).takeWhile
        (fun t => !is_question_start t) := by
    have h3 : j + 3 = (j + 1) + 2 := by omega
    rw [h3]
    exact absorb_eq p.blocks 2 (j + 1)
  cases Option.some.inj hjs
  exact ⟨rfl, by rw [← habs]⟩

theorem claim7_witness :
    ((scenariosOfPage claim7_pg).map Scenario.block_num).count 0 = 1
    ∧ ∀ s ∈ scenariosOfPage claim7_pg, s.block_num = 0 →
        s.page = claim7_pg.page_number ∧
        s.text = joinBB ((claim7_pg.blocks.get ⟨0, by decide⟩).text ::
          (((claim7_pg.blocks.drop (0 + 1)).take 2).map Block.text).takeWhile
            (fun t => !is_question_start t)) :=
  claim7_holds claim7_pg 0 (by decide) (by decide)

theorem claim6_witness :
    ((claim6_sc.scenarios.take (0 + 1)).foldl addStandalone
        (claim6_sc.questions.map (questionChunk claim6_sc)) =
      ((claim6_sc.scenarios.take 0).foldl addStandalone
        (claim6_sc.questions.map (questionChunk claim6_sc))) ++
        [standaloneChunk (claim6_sc.scenarios.get ⟨0, by decide⟩)]
     ↔ ∀ c ∈ (claim6_sc.scenarios.take 0).foldl addStandalone
          (claim6_sc.questions.map (questionChunk claim6_sc)),
        substrS (claim6_sc.scenarios.get ⟨0, by decide⟩).text c.text = false)
    ∧ ((∃ c ∈ claim6_sc.questions.map (questionChunk claim6_sc),
          substrS (claim6_sc.scenarios.get ⟨0, by decide⟩).text c.text = true) →
        (claim6_sc.scenarios.take (0 + 1)).foldl addStandalone
            (claim6_sc.questions.map (questionChunk claim6_sc)) =
          (claim6_sc.scenarios.take 0).foldl addStandalone
            (claim6_sc.questions.map (questionChunk claim6_sc)))
    ∧ create_question_chunks claim6_sc =
        claim6_sc.scenarios.foldl addStandalone
          (claim6_sc.questions.map (questionChunk claim6_sc)) :=
  claim6_holds claim6_sc 0 (by decide)

/-- C8: over the full pipeline on pages whose blocks have non-empty text
(the extraction contract), every produced chunk's text is a blank-line
join of a non-empty list of sections, each being a section header followed
by non-empty content — no header is ever followed by empty content. -/
theorem claim8_holds (pages : List Page)
    (hb : ∀ p ∈ pages, ∀ b ∈ p.blocks, b.text ≠ "") :
    ∀ ch ∈ create_question_chunks (extract_structured_content pages),
      ∃ parts, parts ≠ [] ∧ ch.text = joinBB parts ∧
        ∀ part ∈ parts, goodPart part := by
  intro ch hch
  unfold create_question_chunks at hch
  rcases mem_foldl_addStandalone_cases _ _ _ hch with hmem | ⟨s, hsmem, rfl⟩
  · obtain ⟨q, hq', rfl⟩ := List.mem_map.mp hmem
    refine ⟨chunkParts (extract_structured_content pages) q, ?_, rfl, ?_⟩
    · unfold chunkParts
      simp
    · intro part hpart
      unfold chunkParts at hpart
      rcases List.mem_append.mp hpart with h1 | h2
      · rcases List.mem_append.mp h1 with hA | hB
        · cases hfs : find_relevant_scenario q
              (extract_structured_content pages).scenarios with
          | none =>
            rw [hfs] at hA
            simp [sectionOf] at hA
          | some sx =>
            rw [hfs] at hA
            simp only [sectionOf] at hA
            by_cases hxe : sx = ""
            · rw [if_pos hxe] at hA
              simp at hA
            · rw [if_neg hxe] at hA
              simp only [List.mem_singleton] at hA
              rw [hA]
              exact Or.inl ⟨sx, hxe, rfl⟩
        · cases hft : find_relevant_table q
              (extract_structured_content pages).pages with
          | none =>
            rw [hft] at hB
            simp [sectionOf] at hB
          | some tx =>
            rw [hft] at hB
            simp only [sectionOf] at hB
            by_cases hxe : tx = ""
            · rw [if_pos hxe] at hB
              simp at hB
            · rw [if_neg hxe] at hB
              simp only [List.mem_singleton] at hB
              rw [hB]
              exact Or.inr (Or.inl ⟨tx, hxe, rfl⟩)
      · have hqt : q.text ≠ "" := by
          have hmq : q ∈ ((parse_questions (fullTextOf pages)).map
              (enhance_question_context pages (identify_scenarios pages))) := hq'
          obtain ⟨q0, hq0, rfl⟩ := List.mem_map.mp hmq
          rw [enhance_text]
          exact parse_questions_text_ne _ q0 hq0
        simp only [List.mem_singleton] at h2
        rw [h2]
        exact Or.inr (Or.inr (Or.inr ⟨q.text, hqt, rfl⟩))
  · refine ⟨["Context/Background:\n" ++ s.text], by simp, rfl, ?_⟩
    intro part hpart
    simp only [List.mem_singleton] at hpart
    rw [hpart]
    have hst : s.text ≠ "" := identify_scenarios_text_ne pages hb s hsmem
    exact Or.inr (Or.inr (Or.inl ⟨s.text, hst, rfl⟩))

theorem claim8_witness :
    ∃ parts, parts ≠ [] ∧
      (Chunk.mk "Question: 1. Explain depreciation."
        (.question "1." false false false "1. Explain depreciation.")).text =
        joinBB parts ∧ ∀ part ∈ parts, goodPart part :=
  claim8_holds claim8_pages (by decide)
    (Chunk.mk "Question: 1. Explain depreciation."
      (.question "1." false false false "1. Explain depreciation."))
    (by decide)

/-! ## Empty-document behaviour -/

theorem interL_all_sep (xs : List Chars) (hx : ∀ x ∈ xs, x = []) :
    ∀ c ∈ interL ['\n', '\n'] xs, c = '\n' := by
  induction xs with
  | nil =>
    intro c hc
    simp [interL] at hc
  | cons x ys ih =>
    intro c hc
    cases ys with
    | nil =>
      rw [interL, hx x (by simp)] at hc
      simp at hc
    | cons y zs =>
      rw [interL, hx x (by simp)] at hc
      simp only [List.nil_append, List.mem_append, List.mem_cons,
        List.mem_singleton] at hc
      rcases hc with h | h
      · rcases h with h | h
        · rw [h]
        · simp at h
          rw [h]
      · exact ih (fun z hz => hx z (by simp [hz])) c h

theorem fullTextOf_all_nl (pages : List Page) (hb : ∀ p ∈ pages, p.blocks = []) :
    ∀ c ∈ (fullTextOf pages).data, c = '\n' := by
  intro c hc
  have he : (fullTextOf pages).data =
      interL ['\n', '\n'] ((pages.map pageText).map String.data) := rfl
  rw [he] at hc
  refine interL_all_sep _ ?_ c hc
  intro x hx
  obtain ⟨s, hs, rfl⟩ := List.mem_map.mp hx
  obtain ⟨p, hp, rfl⟩ := List.mem_map.mp hs
  rw [pageText, hb p hp]
  rfl

theorem splitLines_all_nl : ∀ l : Chars, (∀ c ∈ l, c = '\n') →
    ∀ x ∈ splitLines l, x = [] := by
  intro l
  induction l with
  | nil =>
    intro _ x hx
    simp [splitLines] at hx
    exact hx
  | cons c rest ih =>
    intro h x hx
    rw [splitLines, if_pos (h c (by simp))] at hx
    simp only [List.mem_cons] at hx
    rcases hx with h1 | h1
    · exact h1
    · exact ih (fun d hd => h d (by simp [hd])) x h1

theorem foldl_parseStep_id (lines : List String) : ∀ st : ParseState,
    (∀ l ∈ lines, pyStrip l = "") → lines.foldl parseStep st = st := by
  induction lines with
  | nil => exact fun st _ => rfl
  | cons l rest ih =>
    intro st h
    rw [List.foldl_cons,
      show parseStep st l = st by simp only [parseStep, if_pos (h l (by simp))]]
    exact ih st (fun x hx => h x (by simp [hx]))

/-- C9: on a document whose pages all have zero blocks, tables and images,
the pipeline produces empty question, scenario and chunk lists (it is a
total function, so no error can be raised). -/
theorem claim9_holds (pages : List Page)
    (hb : ∀ p ∈ pages, p.blocks = [] ∧ p.tables = [] ∧ p.images = 0) :
    (extract_structured_content pages).questions = []
    ∧ (extract_structured_content pages).scenarios = []
    ∧ create_question_chunks (extract_structured_content pages) = [] := by
  have hb' : ∀ p ∈ pages, p.blocks = [] := fun p hp => (hb p hp).1
  have hscene : identify_scenarios pages = [] := by
    have haux : ∀ (pgs : List Page), (∀ p ∈ pgs, p.blocks = []) →
        ∀ acc : List Scenario,
          pgs.foldl (fun a q => a ++ scenariosOfPage q) acc = acc := by
      intro pgs
      induction pgs with
      | nil => exact fun _ _ => rfl
      | cons p rest ih =>
        intro h acc
        rw [List.foldl_cons]
        have h0 : scenariosOfPage p = [] := by
          rw [scenariosOfPage, h p (by simp)]
          rfl
        rw [h0, List.append_nil]
        exact ih (fun q hq => h q (by simp [hq])) acc
    exact haux pages hb' []
  have hq : parse_questions (fullTextOf pages) = [] := by
    have hlines : ∀ l ∈ (splitLines (fullTextOf pages).data).map
        (fun x => (⟨x⟩ : String)), pyStrip l = "" := by
      intro l hl
      obtain ⟨x, hx, rfl⟩ := List.mem_map.mp hl
      rw [splitLines_all_nl _ (fullTextOf_all_nl pages hb') x hx]
      rfl
    show closeItem (((splitLines (fullTextOf pages).data).map
        (fun l => (⟨l⟩ : String))).foldl parseStep ([], none)).1
      (((splitLines (fullTextOf pages).data).map
        (fun l => (⟨l⟩ : String))).foldl parseStep ([], none)).2 = []
    rw [foldl_parseStep_id _ _ hlines]
    rfl
  refine ⟨?_, hscene, ?_⟩
  · show (parse_questions (fullTextOf pages)).map
      (enhance_question_context pages (identify_scenarios pages)) = []
    rw [hq]
    rfl
  · have e2 : (extract_structured_content pages).questions = [] := by
      show (parse_questions (fullTextOf pages)).map
        (enhance_question_context pages (identify_scenarios pages)) = []
      rw [hq]
      rfl
    unfold create_question_chunks
    rw [show (extract_structured_content pages).scenarios =
      identify_scenarios pages from rfl, hscene, e2]
    rfl

/-- C9 (witness): a one-page document with no blocks, tables or images
yields empty questions, scenarios and chunks. -/
theorem claim9_witness :
    (extract_structured_content [⟨1, [], [], 0⟩]).questions = []
    ∧ (extract_structured_content [⟨1, [], [], 0⟩]).scenarios = []
    ∧ create_question_chunks (extract_structured_content [⟨1, [], [], 0⟩]) = [] :=
  claim9_holds [⟨1, [], [], 0⟩] (by decide)

end PDFX
